import Mathlib

/-!
Verification development for the deep-think orchestration engines
(`src/utils/deep-think/index.ts`).  The single-agent engine
(`DeepThinkEngine`) and the multi-agent engine (`UltraThinkEngine`) are
embedded as pure Lean functions.  External generation calls
(`generateText`, `generateObject`, `JSON.parse`, thrown provider errors)
are modelled as oracle inputs; everything the repository's own code does
with those responses is translated statement by statement.
-/

namespace DeepThink

/-! ## String primitives (JS `includes`, `indexOf`, `trim`, `toLowerCase`) -/

/-- JS `hay.includes(needle)` on exploded strings. -/
def hasSub (needle : List Char) : List Char → Bool
  | [] => needle.isEmpty
  | c :: t => needle.isPrefixOf (c :: t) || hasSub needle t

/-- JS `hay.indexOf(needle)`: index of the first occurrence, `none` for `-1`. -/
def firstIdx (needle : List Char) : List Char → Option Nat
  | [] => if needle.isEmpty then some 0 else none
  | c :: t =>
    if needle.isPrefixOf (c :: t) then some 0
    else (firstIdx needle t).map (· + 1)

/-- JS `String.prototype.trim`: drop whitespace from both ends. -/
def trimChars (l : List Char) : List Char :=
  ((l.dropWhile Char.isWhitespace).reverse.dropWhile Char.isWhitespace).reverse

/-- JS `s.toLowerCase()` (restricted to per-character lowering). -/
def lowerChars (l : List Char) : List Char :=
  l.map Char.toLower

/-- JS `s.toLowerCase().includes("yes")`, the verdict check used throughout
`DeepThinkEngine` (lines 192, 283, 312, 318, 408 of index.ts). -/
def containsYes (s : String) : Bool :=
  hasSub "yes".data (lowerChars s.data)

/-- The needle occurs at position `i` of `s`. -/
def occursAt (m s : List Char) (i : Nat) : Bool :=
  m.isPrefixOf (s.drop i)

/-! ## `extractDetailedSolution` (index.ts lines 140-154) -/

/-- Core of `DeepThinkEngine.extractDetailedSolution` on exploded strings:
find the marker with `indexOf`; absent marker yields `""` when `after`
and the whole text otherwise; a present marker yields the trimmed text
after (resp. before) it. -/
def extractCore (solution marker : List Char) (after : Bool) : List Char :=
  match firstIdx marker solution with
  | none => if after then [] else solution
  | some idx =>
    if after then trimChars (solution.drop (idx + marker.length))
    else trimChars (solution.take idx)

/-- The method `DeepThinkEngine.extractDetailedSolution` (index.ts lines 140-154). -/
def extractDetailedSolution (solution marker : String) (after : Bool) : String :=
  ⟨extractCore solution.data marker.data after⟩

/-- The fixed marker `extractDetailedSolutionMarker` (prompts.ts line 118). -/
def extractDetailedSolutionMarker : String := "Detailed Solution"

/-- The detailed portion handed to `buildVerificationPrompt` by
`verifySolution` (index.ts line 160): extraction with the default
marker and `after = true`. -/
def verifyDetailedPortion (solution : String) : String :=
  extractDetailedSolution solution extractDetailedSolutionMarker true

/-! ## Data model (unnamed store types, index.ts records)

`Verification.timestamp` (`Date.now()`) is wall-clock time and carries no
logical content; it is omitted from the embedding. -/

/-- The `Verification` record minus the wall-clock timestamp. -/
structure Verification where
  passed : Bool
  bugReport : String
  goodVerify : String
deriving DecidableEq, Repr

structure DeepThinkIteration where
  iteration : Nat
  solution : String
  verification : Verification
  status : String
deriving DecidableEq, Repr

structure DeepThinkResult where
  mode : String
  initialThought : String
  improvements : List String
  iterations : List DeepThinkIteration
  verifications : List Verification
  finalSolution : String
  totalIterations : Nat
  successfulVerifications : Nat
deriving DecidableEq, Repr

/-- The tagged union `DeepThinkProgressEvent` (index.ts lines 58-66). -/
inductive ProgressEvent where
  | init (problem : String)
  | thinking (iteration : Nat) (phase : String)
  | solution (solution : String) (iteration : Nat)
  | verification (passed : Bool) (iteration : Nat)
  | correction (iteration : Nat)
  | success (solution : String) (iterations : Nat)
  | failure (reason : String)
  | progress (message : String)
deriving DecidableEq, Repr

/-- Recognize a failure-tagged event. -/
def isFailureEvent : ProgressEvent → Bool
  | .failure _ => true
  | _ => false

/-- Recognize a success-tagged event. -/
def isSuccessEvent : ProgressEvent → Bool
  | .success _ _ => true
  | _ => false

/-- Number of failure events in a stream. -/
def countFailures (evs : List ProgressEvent) : Nat :=
  evs.countP isFailureEvent

/-- The engine options that steer the run loop (defaults 30 / 3 / 10,
index.ts lines 72-78). -/
structure DTConfig where
  maxIterations : Nat
  requiredSuccessfulVerifications : Nat
  maxErrorsBeforeGiveUp : Nat
deriving DecidableEq, Repr

/-! ## Oracle for the generation port

Each external `generateText` response is an oracle value: the two texts of
`initialExploration`, the per-call verification pair (the raw verification
output and the yes/no judgment), and the per-call corrected solution. -/

structure Oracle where
  firstSolution : String
  improvedSolution : String
  verifs : Nat → String × String
  corrections : Nat → String

/-- The method `verifySolution` (index.ts lines 156-201) as a function of the `n`-th
verification oracle response: returns `(bugReport, goodVerify)`; the bug
report is the text before the `"Detailed Verification"` marker, computed
only when the judgment does not contain `"yes"`. -/
def verifyCall (o : Oracle) (n : Nat) : String × String :=
  let gv := (o.verifs n).2
  let bug :=
    if containsYes gv then ""
    else extractDetailedSolution (o.verifs n).1 "Detailed Verification" false
  (bug, gv)

/-! ## The run loop (index.ts lines 291-430) -/

/-- The mutable locals of `DeepThinkEngine.run`, plus counters for the
number of `verifySolution` / correction calls issued so far (these index
the oracle) and the accumulated event stream. -/
structure LoopState where
  solution : String
  bugReport : String
  goodVerify : String
  iterations : List DeepThinkIteration
  verifications : List Verification
  errorCount : Nat
  correctCount : Nat
  verifCalls : Nat
  corrCalls : Nat
  events : List ProgressEvent
deriving DecidableEq, Repr

/-- How the loop of `run` ends: an in-loop `return` (success, carrying the
0-based index of the final pass), the `break` on too many errors, or
falling out after `maxIterations` passes. -/
inductive LoopExit where
  | success (i : Nat) (st : LoopState)
  | errorBreak (st : LoopState)
  | exhausted (st : LoopState)
deriving DecidableEq, Repr

inductive ExitKind where
  | success
  | errorBreak
  | exhausted
deriving DecidableEq, Repr

def LoopExit.kind : LoopExit → ExitKind
  | .success _ _ => .success
  | .errorBreak _ => .errorBreak
  | .exhausted _ => .exhausted

def LoopExit.state : LoopExit → LoopState
  | .success _ st => st
  | .errorBreak st => st
  | .exhausted st => st

/-- One result of a loop pass: terminate with an exit, or continue. -/
inductive StepOut where
  | done (e : LoopExit)
  | next (st : LoopState)
deriving DecidableEq, Repr

/-- One pass of the `for` loop of `run` (index.ts lines 317-412) at index
`i`: record the current verification and iteration; on failure reset the
streak, bump `errorCount`, break on the threshold or issue a correction;
on success bump the streak; then return success if the streak reached the
threshold, else issue the next verification call. -/
def stepFn (cfg : DTConfig) (o : Oracle) (i : Nat) (st : LoopState) : StepOut :=
  let passed := containsYes st.goodVerify
  let v : Verification := ⟨passed, st.bugReport, st.goodVerify⟩
  let iterRec : DeepThinkIteration :=
    ⟨i, st.solution, v, if passed then "completed" else "correcting"⟩
  let st1 : LoopState := { st with
    verifications := st.verifications ++ [v],
    iterations := st.iterations ++ [iterRec] }
  if passed then
    let st2 : LoopState := { st1 with correctCount := st1.correctCount + 1, errorCount := 0 }
    if cfg.requiredSuccessfulVerifications ≤ st2.correctCount then
      .done (.success i
        { st2 with events := st2.events ++ [.success st2.solution (i + 1)] })
    else
      let vc := verifyCall o st2.verifCalls
      .next { st2 with
        bugReport := vc.1, goodVerify := vc.2,
        verifCalls := st2.verifCalls + 1,
        events := st2.events ++
          [.progress "Verifying solution...",
           .verification (containsYes vc.2) (i + 1)] }
  else
    let st2 : LoopState := { st1 with correctCount := 0, errorCount := st1.errorCount + 1 }
    if cfg.maxErrorsBeforeGiveUp ≤ st2.errorCount then
      .done (.errorBreak
        { st2 with events := st2.events ++ [.failure "Too many errors"] })
    else
      let newSol := o.corrections st2.corrCalls
      let st3 : LoopState := { st2 with
        solution := newSol, corrCalls := st2.corrCalls + 1,
        events := st2.events ++ [.correction i, .solution newSol (i + 1)] }
      if cfg.requiredSuccessfulVerifications ≤ st3.correctCount then
        .done (.success i
          { st3 with events := st3.events ++ [.success st3.solution (i + 1)] })
      else
        let vc := verifyCall o st3.verifCalls
        .next { st3 with
          bugReport := vc.1, goodVerify := vc.2,
          verifCalls := st3.verifCalls + 1,
          events := st3.events ++
            [.progress "Verifying solution...",
             .verification (containsYes vc.2) (i + 1)] }

/-- The `for (let i = 0; i < maxIterations; i++)` loop, with the remaining
pass budget as fuel. -/
def runLoop (cfg : DTConfig) (o : Oracle) : Nat → Nat → LoopState → LoopExit
  | _, 0, st => .exhausted st
  | i, fuel + 1, st =>
    match stepFn cfg o i st with
    | .done e => e
    | .next st' => runLoop cfg o (i + 1) fuel st'

/-- A whole run: terminal record, full event stream, and the exit. -/
structure RunOut where
  result : DeepThinkResult
  events : List ProgressEvent
  exit : LoopExit
deriving DecidableEq, Repr

/-- The prelude of `DeepThinkEngine.run`: the events and first
verification call of `initialExploration` (index.ts lines 203-289) and
the locals of `run` just before the loop (lines 305-314); the streak is
seeded from the initial verdict. -/
def initState (o : Oracle) (problem : String) : LoopState :=
  { solution := o.improvedSolution,
    bugReport := (verifyCall o 0).1,
    goodVerify := (verifyCall o 0).2,
    iterations := [], verifications := [], errorCount := 0,
    correctCount := if containsYes (verifyCall o 0).2 then 1 else 0,
    verifCalls := 1, corrCalls := 0,
    events :=
      [.init problem,
       .thinking 0 "initial-exploration",
       .solution o.firstSolution 0,
       .thinking 0 "self-improvement",
       .solution o.improvedSolution 0,
       .progress "Verifying solution...",
       .verification (containsYes (verifyCall o 0).2) 0] }

/-- The method `DeepThinkEngine.run` (index.ts lines 291-430): an in-loop success
builds the success record, while both the error break and iteration
exhaustion fall through to the final `failure` emit and a record with
`totalIterations := maxIterations`. -/
def runFull (cfg : DTConfig) (o : Oracle) (problem : String) : RunOut :=
  match runLoop cfg o 0 cfg.maxIterations (initState o problem) with
  | .success i st =>
    { result :=
        { mode := "deep-think", initialThought := o.improvedSolution,
          improvements := [], iterations := st.iterations,
          verifications := st.verifications, finalSolution := st.solution,
          totalIterations := i + 1,
          successfulVerifications := st.correctCount },
      events := st.events, exit := .success i st }
  | .errorBreak st =>
    { result :=
        { mode := "deep-think", initialThought := o.improvedSolution,
          improvements := [], iterations := st.iterations,
          verifications := st.verifications, finalSolution := st.solution,
          totalIterations := cfg.maxIterations,
          successfulVerifications := st.correctCount },
      events := st.events ++ [.failure "Max iterations reached"],
      exit := .errorBreak st }
  | .exhausted st =>
    { result :=
        { mode := "deep-think", initialThought := o.improvedSolution,
          improvements := [], iterations := st.iterations,
          verifications := st.verifications, finalSolution := st.solution,
          totalIterations := cfg.maxIterations,
          successfulVerifications := st.correctCount },
      events := st.events ++ [.failure "Max iterations reached"],
      exit := .exhausted st }

/-- The oracle always returns a passing judgment. -/
def alwaysPasses (o : Oracle) : Prop :=
  ∀ n, containsYes (o.verifs n).2 = true

/-- The oracle always returns a failing judgment. -/
def alwaysFails (o : Oracle) : Prop :=
  ∀ n, containsYes (o.verifs n).2 = false

/-- The 0-based index of the final pass, for in-loop success exits. -/
def LoopExit.idx : LoopExit → Option Nat
  | .success i _ => some i
  | _ => none

theorem verifyCall_snd (o : Oracle) (n : Nat) :
    (verifyCall o n).2 = (o.verifs n).2 := rfl

theorem runLoop_zero (cfg : DTConfig) (o : Oracle) (i : Nat) (st : LoopState) :
    runLoop cfg o i 0 st = .exhausted st := rfl

theorem runLoop_done (cfg : DTConfig) (o : Oracle) {i : Nat} {st : LoopState}
    (fuel : Nat) {e : LoopExit} (h : stepFn cfg o i st = .done e) :
    runLoop cfg o i (fuel + 1) st = e := by
  simp [runLoop, h]

theorem runLoop_cont (cfg : DTConfig) (o : Oracle) {i : Nat} {st st' : LoopState}
    (fuel : Nat) (h : stepFn cfg o i st = .next st') :
    runLoop cfg o i (fuel + 1) st = runLoop cfg o (i + 1) fuel st' := by
  simp [runLoop, h]

/-! ### Branch equations for one loop pass -/

theorem stepFn_pass_done (cfg : DTConfig) (o : Oracle) (i : Nat) (st : LoopState)
    (hg : containsYes st.goodVerify = true)
    (hbig : cfg.requiredSuccessfulVerifications ≤ st.correctCount + 1) :
    stepFn cfg o i st = .done (.success i { st with
      iterations := st.iterations ++
        [⟨i, st.solution, ⟨true, st.bugReport, st.goodVerify⟩, "completed"⟩],
      verifications := st.verifications ++ [⟨true, st.bugReport, st.goodVerify⟩],
      errorCount := 0,
      correctCount := st.correctCount + 1,
      events := st.events ++ [.success st.solution (i + 1)] }) := by
  simp [stepFn, hg, hbig]

theorem stepFn_pass_cont (cfg : DTConfig) (o : Oracle) (i : Nat) (st : LoopState)
    (hg : containsYes st.goodVerify = true)
    (hlt : st.correctCount + 1 < cfg.requiredSuccessfulVerifications) :
    stepFn cfg o i st = .next { st with
      bugReport := (verifyCall o st.verifCalls).1,
      goodVerify := (o.verifs st.verifCalls).2,
      iterations := st.iterations ++
        [⟨i, st.solution, ⟨true, st.bugReport, st.goodVerify⟩, "completed"⟩],
      verifications := st.verifications ++ [⟨true, st.bugReport, st.goodVerify⟩],
      errorCount := 0,
      correctCount := st.correctCount + 1,
      verifCalls := st.verifCalls + 1,
      events := st.events ++
        [.progress "Verifying solution...",
         .verification (containsYes (o.verifs st.verifCalls).2) (i + 1)] } := by
  simp [stepFn, hg, Nat.not_le.mpr hlt, verifyCall_snd]

theorem stepFn_fail_break (cfg : DTConfig) (o : Oracle) (i : Nat) (st : LoopState)
    (hg : containsYes st.goodVerify = false)
    (hbig : cfg.maxErrorsBeforeGiveUp ≤ st.errorCount + 1) :
    stepFn cfg o i st = .done (.errorBreak { st with
      iterations := st.iterations ++
        [⟨i, st.solution, ⟨false, st.bugReport, st.goodVerify⟩, "correcting"⟩],
      verifications := st.verifications ++ [⟨false, st.bugReport, st.goodVerify⟩],
      errorCount := st.errorCount + 1,
      correctCount := 0,
      events := st.events ++ [.failure "Too many errors"] }) := by
  simp [stepFn, hg, hbig]

theorem stepFn_fail_cont (cfg : DTConfig) (o : Oracle) (i : Nat) (st : LoopState)
    (hg : containsYes st.goodVerify = false)
    (hlt : st.errorCount + 1 < cfg.maxErrorsBeforeGiveUp)
    (hreq : 1 ≤ cfg.requiredSuccessfulVerifications) :
    stepFn cfg o i st = .next { st with
      solution := o.corrections st.corrCalls,
      bugReport := (verifyCall o st.verifCalls).1,
      goodVerify := (o.verifs st.verifCalls).2,
      iterations := st.iterations ++
        [⟨i, st.solution, ⟨false, st.bugReport, st.goodVerify⟩, "correcting"⟩],
      verifications := st.verifications ++ [⟨false, st.bugReport, st.goodVerify⟩],
      errorCount := st.errorCount + 1,
      correctCount := 0,
      verifCalls := st.verifCalls + 1,
      corrCalls := st.corrCalls + 1,
      events := st.events ++
        [.correction i, .solution (o.corrections st.corrCalls) (i + 1),
         .progress "Verifying solution...",
         .verification (containsYes (o.verifs st.verifCalls).2) (i + 1)] } := by
  simp [stepFn, hg, Nat.not_le.mpr hlt, Nat.not_le.mpr hreq, verifyCall_snd]

/-! ### The loop under an always-passing oracle -/

theorem runLoop_passes (cfg : DTConfig) (o : Oracle) (ho : alwaysPasses o) :
    ∀ (fuel i : Nat) (st : LoopState), 1 ≤ fuel →
      containsYes st.goodVerify = true →
      cfg.requiredSuccessfulVerifications ≤ st.correctCount + fuel →
      (runLoop cfg o i fuel st).kind = ExitKind.success ∧
      (runLoop cfg o i fuel st).idx =
        some (i + (cfg.requiredSuccessfulVerifications - st.correctCount - 1)) ∧
      (runLoop cfg o i fuel st).state.correctCount =
        st.correctCount + (cfg.requiredSuccessfulVerifications - st.correctCount - 1) + 1 ∧
      (runLoop cfg o i fuel st).state.verifCalls =
        st.verifCalls + (cfg.requiredSuccessfulVerifications - st.correctCount - 1) ∧
      (runLoop cfg o i fuel st).state.corrCalls = st.corrCalls ∧
      (runLoop cfg o i fuel st).state.solution = st.solution := by
  intro fuel
  induction fuel with
  | zero => intro i st hf; omega
  | succ n ih =>
    intro i st _ hg hK
    by_cases hbig : cfg.requiredSuccessfulVerifications ≤ st.correctCount + 1
    · have hr : cfg.requiredSuccessfulVerifications - st.correctCount - 1 = 0 := by omega
      rw [runLoop_done cfg o n (stepFn_pass_done cfg o i st hg hbig)]
      simp [LoopExit.kind, LoopExit.idx, LoopExit.state, hr]
    · have hlt : st.correctCount + 1 < cfg.requiredSuccessfulVerifications := by omega
      rw [runLoop_cont cfg o n (stepFn_pass_cont cfg o i st hg hlt)]
      have hg' : containsYes (o.verifs st.verifCalls).2 = true := ho st.verifCalls
      have key := ih (i + 1)
        { st with
          bugReport := (verifyCall o st.verifCalls).1,
          goodVerify := (o.verifs st.verifCalls).2,
          iterations := st.iterations ++
            [⟨i, st.solution, ⟨true, st.bugReport, st.goodVerify⟩, "completed"⟩],
          verifications := st.verifications ++ [⟨true, st.bugReport, st.goodVerify⟩],
          errorCount := 0,
          correctCount := st.correctCount + 1,
          verifCalls := st.verifCalls + 1,
          events := st.events ++
            [.progress "Verifying solution...",
             .verification (containsYes (o.verifs st.verifCalls).2) (i + 1)] }
        (by omega) hg' (by simp; omega)
      simp only at key
      obtain ⟨k1, k2, k3, k4, k5, k6⟩ := key
      refine ⟨k1, ?_, ?_, ?_, k5, k6⟩
      · rw [k2]
        have : i + 1 + (cfg.requiredSuccessfulVerifications - (st.correctCount + 1) - 1) =
            i + (cfg.requiredSuccessfulVerifications - st.correctCount - 1) := by omega
        rw [this]
      · rw [k3]; omega
      · rw [k4]; omega

/-! ### The loop under an always-failing oracle -/

theorem countFailures_append (a b : List ProgressEvent) :
    countFailures (a ++ b) = countFailures a + countFailures b :=
  List.countP_append _ _ _

theorem runLoop_fails (cfg : DTConfig) (o : Oracle) (ho : alwaysFails o)
    (hreq : 1 ≤ cfg.requiredSuccessfulVerifications) :
    ∀ (fuel i : Nat) (st : LoopState), 1 ≤ fuel →
      containsYes st.goodVerify = false →
      cfg.maxErrorsBeforeGiveUp - st.errorCount ≤ fuel →
      (runLoop cfg o i fuel st).kind = ExitKind.errorBreak ∧
      (runLoop cfg o i fuel st).state.errorCount =
        st.errorCount + (cfg.maxErrorsBeforeGiveUp - st.errorCount - 1) + 1 ∧
      (runLoop cfg o i fuel st).state.corrCalls =
        st.corrCalls + (cfg.maxErrorsBeforeGiveUp - st.errorCount - 1) ∧
      (runLoop cfg o i fuel st).state.verifCalls =
        st.verifCalls + (cfg.maxErrorsBeforeGiveUp - st.errorCount - 1) ∧
      (runLoop cfg o i fuel st).state.iterations.length =
        st.iterations.length + (cfg.maxErrorsBeforeGiveUp - st.errorCount - 1) + 1 ∧
      (runLoop cfg o i fuel st).state.correctCount = 0 ∧
      countFailures (runLoop cfg o i fuel st).state.events =
        countFailures st.events + 1 := by
  intro fuel
  induction fuel with
  | zero => intro i st hf; omega
  | succ n ih =>
    intro i st _ hg hE
    by_cases hbig : cfg.maxErrorsBeforeGiveUp ≤ st.errorCount + 1
    · have hr : cfg.maxErrorsBeforeGiveUp - st.errorCount - 1 = 0 := by omega
      rw [runLoop_done cfg o n (stepFn_fail_break cfg o i st hg hbig)]
      simp [LoopExit.kind, LoopExit.state, hr, countFailures_append, countFailures,
        isFailureEvent]
    · have hlt : st.errorCount + 1 < cfg.maxErrorsBeforeGiveUp := by omega
      rw [runLoop_cont cfg o n (stepFn_fail_cont cfg o i st hg hlt hreq)]
      have hg' : containsYes (o.verifs st.verifCalls).2 = false := ho st.verifCalls
      have key := ih (i + 1)
        { st with
          solution := o.corrections st.corrCalls,
          bugReport := (verifyCall o st.verifCalls).1,
          goodVerify := (o.verifs st.verifCalls).2,
          iterations := st.iterations ++
            [⟨i, st.solution, ⟨false, st.bugReport, st.goodVerify⟩, "correcting"⟩],
          verifications := st.verifications ++ [⟨false, st.bugReport, st.goodVerify⟩],
          errorCount := st.errorCount + 1,
          correctCount := 0,
          verifCalls := st.verifCalls + 1,
          corrCalls := st.corrCalls + 1,
          events := st.events ++
            [.correction i, .solution (o.corrections st.corrCalls) (i + 1),
             .progress "Verifying solution...",
             .verification (containsYes (o.verifs st.verifCalls).2) (i + 1)] }
        (by omega) hg' (by simp; omega)
      simp only at key
      obtain ⟨k1, k2, k3, k4, k5, k6, k7⟩ := key
      refine ⟨k1, ?_, ?_, ?_, ?_, k6, ?_⟩
      · rw [k2]; omega
      · rw [k3]; omega
      · rw [k4]; omega
      · rw [k5]; simp; omega
      · rw [k7, countFailures_append]
        simp [countFailures, isFailureEvent]

/-! ### Failure-event bookkeeping of the loop, for arbitrary oracles -/

theorem runLoop_countFailures (cfg : DTConfig) (o : Oracle)
    (hreq : 1 ≤ cfg.requiredSuccessfulVerifications) :
    ∀ (fuel i : Nat) (st : LoopState),
      countFailures (runLoop cfg o i fuel st).state.events =
        countFailures st.events +
          (if (runLoop cfg o i fuel st).kind = ExitKind.errorBreak then 1 else 0) := by
  intro fuel
  induction fuel with
  | zero =>
    intro i st
    simp [runLoop_zero, LoopExit.state, LoopExit.kind]
  | succ n ih =>
    intro i st
    by_cases hg : containsYes st.goodVerify = true
    · by_cases hbig : cfg.requiredSuccessfulVerifications ≤ st.correctCount + 1
      · rw [runLoop_done cfg o n (stepFn_pass_done cfg o i st hg hbig)]
        simp [LoopExit.state, LoopExit.kind, countFailures_append, countFailures,
          isFailureEvent]
      · rw [runLoop_cont cfg o n
          (stepFn_pass_cont cfg o i st hg (by omega))]
        rw [ih]
        simp [countFailures_append, countFailures, isFailureEvent]
    · have hg' : containsYes st.goodVerify = false := by
        cases h : containsYes st.goodVerify
        · rfl
        · exact absurd h hg
      by_cases hbig : cfg.maxErrorsBeforeGiveUp ≤ st.errorCount + 1
      · rw [runLoop_done cfg o n (stepFn_fail_break cfg o i st hg' hbig)]
        simp [LoopExit.state, LoopExit.kind, countFailures_append, countFailures,
          isFailureEvent]
      · rw [runLoop_cont cfg o n
          (stepFn_fail_cont cfg o i st hg' (by omega) hreq)]
        rw [ih]
        simp [countFailures_append, countFailures, isFailureEvent]

/-! ## Concrete oracles used as witnesses -/

/-- An oracle whose yes/no judgment is always the literal `"yes"`. -/
def passOracle : Oracle :=
  ⟨"first", "improved", fun _ => ("report", "yes"), fun n => "fix" ++ toString n⟩

/-- An oracle whose yes/no judgment is always the literal `"no"`. -/
def failOracle : Oracle :=
  ⟨"first", "improved", fun _ => ("report", "no"), fun n => "fix" ++ toString n⟩

theorem passOracle_passes : alwaysPasses passOracle := fun _ => rfl

theorem failOracle_fails : alwaysFails failOracle := fun _ => rfl

theorem initState_goodVerify (o : Oracle) (p : String) :
    (initState o p).goodVerify = (o.verifs 0).2 := rfl

theorem initState_correctCount_pass (o : Oracle) (p : String)
    (h : containsYes (o.verifs 0).2 = true) :
    (initState o p).correctCount = 1 := by
  simp [initState, verifyCall_snd, h]

theorem initState_correctCount_fail (o : Oracle) (p : String)
    (h : containsYes (o.verifs 0).2 = false) :
    (initState o p).correctCount = 0 := by
  simp [initState, verifyCall_snd, h]

theorem initState_countFailures (o : Oracle) (p : String) :
    countFailures (initState o p).events = 0 := rfl

/-! ## Claim C1 -/

/-- C1 is false as stated: with `requiredSuccessfulVerifications = 1` and an
oracle that always judges `"yes"`, the run succeeds with
`successfulVerifications = 2` (not 1) after `1` total verification call,
i.e. `0` calls after the one made by `initialExploration` (not 1). -/
theorem claim1_amplification_cex :
    (runFull ⟨5, 1, 10⟩ passOracle "p").exit.kind = ExitKind.success ∧
    (runFull ⟨5, 1, 10⟩ passOracle "p").result.successfulVerifications = 2 ∧
    (runFull ⟨5, 1, 10⟩ passOracle "p").result.successfulVerifications ≠ 1 ∧
    (runFull ⟨5, 1, 10⟩ passOracle "p").exit.state.verifCalls = 1 ∧
    (runFull ⟨5, 1, 10⟩ passOracle "p").exit.state.verifCalls - 1 ≠ 1 := by
  refine ⟨?_, ?_, ?_, ?_, ?_⟩ <;> decide

/-- C1 (amended): for `requiredSuccessfulVerifications = K ≥ 1`, a
single-agent run whose every verification judgment passes terminates with
a Success exit whose `successfulVerifications` equals `(K - 2) + 2` (the
initial verification is counted twice towards the streak), issuing exactly
`K - 2` verification calls after the initial one (so `1 + (K - 2)` in
total), no corrections, and `totalIterations = (K - 2) + 1`. -/
theorem claim1_amplification_run (cfg : DTConfig) (o : Oracle) (p : String)
    (ho : alwaysPasses o)
    (hfuel : 1 ≤ cfg.maxIterations)
    (hcap : cfg.requiredSuccessfulVerifications ≤ cfg.maxIterations + 1) :
    (runFull cfg o p).exit.kind = ExitKind.success ∧
    (runFull cfg o p).result.successfulVerifications =
      (cfg.requiredSuccessfulVerifications - 2) + 2 ∧
    (runFull cfg o p).result.totalIterations =
      (cfg.requiredSuccessfulVerifications - 2) + 1 ∧
    (runFull cfg o p).exit.state.verifCalls =
      1 + (cfg.requiredSuccessfulVerifications - 2) ∧
    (runFull cfg o p).exit.state.corrCalls = 0 ∧
    (runFull cfg o p).result.finalSolution = o.improvedSolution := by
  have hg : containsYes (initState o p).goodVerify = true := by
    rw [initState_goodVerify]; exact ho 0
  have hc : (initState o p).correctCount = 1 := initState_correctCount_pass o p (ho 0)
  have key := runLoop_passes cfg o ho cfg.maxIterations 0 (initState o p) hfuel hg
    (by rw [hc]; omega)
  rw [hc] at key
  obtain ⟨k1, k2, k3, k4, k5, k6⟩ := key
  cases hrl : runLoop cfg o 0 cfg.maxIterations (initState o p) with
  | success i st =>
    rw [hrl] at k2 k3 k4 k5 k6
    simp only [LoopExit.idx, LoopExit.state, Option.some.injEq] at k2 k3 k4 k5 k6
    have hv1 : (initState o p).verifCalls = 1 := rfl
    have hc0 : (initState o p).corrCalls = 0 := rfl
    rw [hv1] at k4
    rw [hc0] at k5
    simp only [runFull, hrl, LoopExit.state, LoopExit.kind]
    exact ⟨trivial, by rw [k3]; omega, by omega, by rw [k4]; omega, k5, by rw [k6]; rfl⟩
  | errorBreak st =>
    rw [hrl] at k1; simp [LoopExit.kind] at k1
  | exhausted st =>
    rw [hrl] at k1; simp [LoopExit.kind] at k1

/-- C1 witness at `K = 3` over the always-passing oracle. -/
theorem claim1_amplification_run_witness :
    (runFull ⟨5, 3, 10⟩ passOracle "p").exit.kind = ExitKind.success ∧
    (runFull ⟨5, 3, 10⟩ passOracle "p").result.successfulVerifications = (3 - 2) + 2 ∧
    (runFull ⟨5, 3, 10⟩ passOracle "p").result.totalIterations = (3 - 2) + 1 ∧
    (runFull ⟨5, 3, 10⟩ passOracle "p").exit.state.verifCalls = 1 + (3 - 2) ∧
    (runFull ⟨5, 3, 10⟩ passOracle "p").exit.state.corrCalls = 0 ∧
    (runFull ⟨5, 3, 10⟩ passOracle "p").result.finalSolution = passOracle.improvedSolution :=
  claim1_amplification_run ⟨5, 3, 10⟩ passOracle "p" passOracle_passes
    (by decide) (by decide)

end DeepThink

namespace DeepThink

/-! ## Claim C5 -/

/-- C5: when every verification judgment fails, the run terminates through
the too-many-errors break exactly at the pass on which `errorCount`
reaches `maxErrorsBeforeGiveUp` (so exactly that many loop passes are
recorded), a failure event is emitted, and exactly
`maxErrorsBeforeGiveUp - 1 ≤ maxErrorsBeforeGiveUp` correction calls were
issued (assuming `maxErrorsBeforeGiveUp ≤ maxIterations` and at least one
success is required). -/
theorem claim5_errorExhaustion_run (cfg : DTConfig) (o : Oracle) (p : String)
    (ho : alwaysFails o)
    (hreq : 1 ≤ cfg.requiredSuccessfulVerifications)
    (hE : 1 ≤ cfg.maxErrorsBeforeGiveUp)
    (hcap : cfg.maxErrorsBeforeGiveUp ≤ cfg.maxIterations) :
    (runFull cfg o p).exit.kind = ExitKind.errorBreak ∧
    (runFull cfg o p).exit.state.errorCount = cfg.maxErrorsBeforeGiveUp ∧
    (runFull cfg o p).result.iterations.length = cfg.maxErrorsBeforeGiveUp ∧
    (runFull cfg o p).exit.state.corrCalls = cfg.maxErrorsBeforeGiveUp - 1 ∧
    (runFull cfg o p).exit.state.corrCalls ≤ cfg.maxErrorsBeforeGiveUp ∧
    1 ≤ countFailures (runFull cfg o p).events := by
  have hg : containsYes (initState o p).goodVerify = false := by
    rw [initState_goodVerify]; exact ho 0
  have he0 : (initState o p).errorCount = 0 := rfl
  have key := runLoop_fails cfg o ho hreq cfg.maxIterations 0 (initState o p)
    (by omega) hg (by rw [he0]; omega)
  rw [he0] at key
  obtain ⟨k1, k2, k3, k4, k5, k6, k7⟩ := key
  cases hrl : runLoop cfg o 0 cfg.maxIterations (initState o p) with
  | success i st =>
    rw [hrl] at k1; simp [LoopExit.kind] at k1
  | exhausted st =>
    rw [hrl] at k1; simp [LoopExit.kind] at k1
  | errorBreak st =>
    rw [hrl] at k2 k3 k4 k5
    simp only [LoopExit.state] at k2 k3 k4 k5
    have hl0 : (initState o p).iterations.length = 0 := rfl
    have hc0 : (initState o p).corrCalls = 0 := rfl
    rw [hl0] at k5
    rw [hc0] at k3
    simp only [runFull, hrl, LoopExit.state, LoopExit.kind]
    refine ⟨trivial, by rw [k2]; omega, by rw [k5]; omega, by rw [k3]; omega,
      by rw [k3]; omega, ?_⟩
    rw [countFailures_append]
    simp [countFailures, isFailureEvent]

/-- C5 witness: `maxErrorsBeforeGiveUp = 2` inside `maxIterations = 5`
over the always-failing oracle. -/
theorem claim5_errorExhaustion_run_witness :
    (runFull ⟨5, 3, 2⟩ failOracle "p").exit.kind = ExitKind.errorBreak ∧
    (runFull ⟨5, 3, 2⟩ failOracle "p").exit.state.errorCount = 2 ∧
    (runFull ⟨5, 3, 2⟩ failOracle "p").result.iterations.length = 2 ∧
    (runFull ⟨5, 3, 2⟩ failOracle "p").exit.state.corrCalls = 2 - 1 ∧
    (runFull ⟨5, 3, 2⟩ failOracle "p").exit.state.corrCalls ≤ 2 ∧
    1 ≤ countFailures (runFull ⟨5, 3, 2⟩ failOracle "p").events :=
  claim5_errorExhaustion_run ⟨5, 3, 2⟩ failOracle "p" failOracle_fails
    (by decide) (by decide) (by decide)

/-! ## Claim C3 -/

/-- C3 is false as stated: with `maxErrorsBeforeGiveUp = 1` and an oracle
that always judges `"no"`, the run reaches the terminal Failure state and
emits two failure events (`"Too many errors"` at the break, then
`"Max iterations reached"` after the loop), not one. -/
theorem claim3_singleFailureEvent_cex :
    countFailures (runFull ⟨2, 3, 1⟩ failOracle "p").events = 2 ∧
    countFailures (runFull ⟨2, 3, 1⟩ failOracle "p").events ≠ 1 ∧
    (runFull ⟨2, 3, 1⟩ failOracle "p").events.filter isFailureEvent =
      [.failure "Too many errors", .failure "Max iterations reached"] := by
  refine ⟨?_, ?_, ?_⟩ <;> decide

/-- C3 (amended): the number of failure events a single-agent run emits is
determined by how it terminates — zero on an in-loop success, exactly two
when the consecutive-error break is taken (`"Too many errors"` followed by
the unconditional post-loop `"Max iterations reached"`), and exactly one
when the loop exhausts `maxIterations`. -/
theorem claim3_failureEvents_run (cfg : DTConfig) (o : Oracle) (p : String)
    (hreq : 1 ≤ cfg.requiredSuccessfulVerifications) :
    countFailures (runFull cfg o p).events =
      (match (runFull cfg o p).exit.kind with
        | ExitKind.success => 0
        | ExitKind.errorBreak => 2
        | ExitKind.exhausted => 1) := by
  have key := runLoop_countFailures cfg o hreq cfg.maxIterations 0 (initState o p)
  rw [initState_countFailures] at key
  cases hrl : runLoop cfg o 0 cfg.maxIterations (initState o p) with
  | success i st =>
    rw [hrl] at key
    simp only [LoopExit.state, LoopExit.kind] at key
    simp only [runFull, hrl, LoopExit.kind]
    simpa using key
  | errorBreak st =>
    rw [hrl] at key
    simp only [LoopExit.state, LoopExit.kind] at key
    simp at key
    simp only [runFull, hrl, LoopExit.kind]
    rw [countFailures_append, key]
    decide
  | exhausted st =>
    rw [hrl] at key
    simp only [LoopExit.state, LoopExit.kind] at key
    simp at key
    simp only [runFull, hrl, LoopExit.kind]
    rw [countFailures_append, key]
    decide

/-- C3 witness: an error-break run emits exactly two failure events. -/
theorem claim3_failureEvents_run_witness :
    countFailures (runFull ⟨3, 3, 2⟩ failOracle "p").events =
      (match (runFull ⟨3, 3, 2⟩ failOracle "p").exit.kind with
        | ExitKind.success => 0
        | ExitKind.errorBreak => 2
        | ExitKind.exhausted => 1) :=
  claim3_failureEvents_run ⟨3, 3, 2⟩ failOracle "p" (by decide)

/-! ## Claim C9 -/

/-- C9: a run that terminates through the consecutive-error break while
having executed strictly fewer loop passes than `maxIterations` still
reports `totalIterations = maxIterations`, strictly more than the number
of recorded `Iteration` entries. -/
theorem claim9_totalIterations_run (cfg : DTConfig) (o : Oracle) (p : String)
    (hbrk : (runFull cfg o p).exit.kind = ExitKind.errorBreak)
    (hfewer : (runFull cfg o p).result.iterations.length < cfg.maxIterations) :
    (runFull cfg o p).result.totalIterations = cfg.maxIterations ∧
    (runFull cfg o p).result.iterations.length <
      (runFull cfg o p).result.totalIterations := by
  cases hrl : runLoop cfg o 0 cfg.maxIterations (initState o p) with
  | success i st =>
    rw [runFull, hrl] at hbrk
    simp [LoopExit.kind] at hbrk
  | exhausted st =>
    rw [runFull, hrl] at hbrk
    simp [LoopExit.kind] at hbrk
  | errorBreak st =>
    rw [runFull, hrl] at hfewer ⊢
    exact ⟨rfl, hfewer⟩

/-- C9 witness: error threshold 2 reached inside `maxIterations = 5`. -/
theorem claim9_totalIterations_run_witness :
    (runFull ⟨5, 3, 2⟩ failOracle "q").result.totalIterations = 5 ∧
    (runFull ⟨5, 3, 2⟩ failOracle "q").result.iterations.length <
      (runFull ⟨5, 3, 2⟩ failOracle "q").result.totalIterations :=
  claim9_totalIterations_run ⟨5, 3, 2⟩ failOracle "q" (by decide) (by decide)

end DeepThink

namespace DeepThink

/-! ## Claim C8 -/

theorem stepFn_fail_cont_zero (cfg : DTConfig) (o : Oracle) (i : Nat) (st : LoopState)
    (hg : containsYes st.goodVerify = false)
    (hlt : st.errorCount + 1 < cfg.maxErrorsBeforeGiveUp)
    (hreq : cfg.requiredSuccessfulVerifications = 0) :
    stepFn cfg o i st = .done (.success i { st with
      solution := o.corrections st.corrCalls,
      iterations := st.iterations ++
        [⟨i, st.solution, ⟨false, st.bugReport, st.goodVerify⟩, "correcting"⟩],
      verifications := st.verifications ++ [⟨false, st.bugReport, st.goodVerify⟩],
      errorCount := st.errorCount + 1,
      correctCount := 0,
      corrCalls := st.corrCalls + 1,
      events := st.events ++
        [.correction i, .solution (o.corrections st.corrCalls) (i + 1),
         .success (o.corrections st.corrCalls) (i + 1)] }) := by
  simp [stepFn, hg, Nat.not_le.mpr hlt, hreq]

/-- Every `Verification` record the loop ever appends carries
`passed = containsYes goodVerify` by construction. -/
theorem runLoop_recordsOk (cfg : DTConfig) (o : Oracle) :
    ∀ (fuel i : Nat) (st : LoopState),
      (∀ v ∈ st.verifications, v.passed = containsYes v.goodVerify) →
      ∀ v ∈ (runLoop cfg o i fuel st).state.verifications,
        v.passed = containsYes v.goodVerify := by
  intro fuel
  induction fuel with
  | zero =>
    intro i st h
    simpa [runLoop_zero, LoopExit.state] using h
  | succ n ih =>
    intro i st h
    by_cases hg : containsYes st.goodVerify = true
    · have hpush : ∀ v ∈ st.verifications ++ [⟨true, st.bugReport, st.goodVerify⟩],
          v.passed = containsYes v.goodVerify := by
        intro v hv
        rcases List.mem_append.mp hv with h1 | h2
        · exact h v h1
        · simp at h2; subst h2; simpa using hg.symm
      by_cases hbig : cfg.requiredSuccessfulVerifications ≤ st.correctCount + 1
      · rw [runLoop_done cfg o n (stepFn_pass_done cfg o i st hg hbig)]
        simpa [LoopExit.state] using hpush
      · rw [runLoop_cont cfg o n (stepFn_pass_cont cfg o i st hg (by omega))]
        exact ih (i + 1) _ hpush
    · have hg' : containsYes st.goodVerify = false := by
        cases hgv : containsYes st.goodVerify
        · rfl
        · exact absurd hgv hg
      have hpush : ∀ v ∈ st.verifications ++ [⟨false, st.bugReport, st.goodVerify⟩],
          v.passed = containsYes v.goodVerify := by
        intro v hv
        rcases List.mem_append.mp hv with h1 | h2
        · exact h v h1
        · simp at h2; subst h2; simpa using hg'.symm
      by_cases hbig : cfg.maxErrorsBeforeGiveUp ≤ st.errorCount + 1
      · rw [runLoop_done cfg o n (stepFn_fail_break cfg o i st hg' hbig)]
        simpa [LoopExit.state] using hpush
      · by_cases hreq : 1 ≤ cfg.requiredSuccessfulVerifications
        · rw [runLoop_cont cfg o n (stepFn_fail_cont cfg o i st hg' (by omega) hreq)]
          exact ih (i + 1) _ hpush
        · rw [runLoop_done cfg o n
            (stepFn_fail_cont_zero cfg o i st hg' (by omega) (by omega))]
          simpa [LoopExit.state] using hpush

/-- C8: every `Verification` record in a run's result satisfies
`passed = containsYes goodVerify` (the case-insensitive substring check
for `"yes"` on the stored raw verdict), so any two records of the run
with the same raw verdict agree on `passed`. -/
theorem claim8_passedPure_run (cfg : DTConfig) (o : Oracle) (p : String) :
    (∀ v ∈ (runFull cfg o p).result.verifications,
        v.passed = containsYes v.goodVerify) ∧
    (∀ v w, v ∈ (runFull cfg o p).result.verifications →
        w ∈ (runFull cfg o p).result.verifications →
        v.goodVerify = w.goodVerify → v.passed = w.passed) := by
  have hnil : ∀ v ∈ (initState o p).verifications,
      v.passed = containsYes v.goodVerify := by
    intro v hv
    exact absurd hv (List.not_mem_nil v)
  have key := runLoop_recordsOk cfg o cfg.maxIterations 0 (initState o p) hnil
  have hres : ∀ v ∈ (runFull cfg o p).result.verifications,
      v.passed = containsYes v.goodVerify := by
    cases hrl : runLoop cfg o 0 cfg.maxIterations (initState o p) with
    | success i st =>
      rw [hrl] at key
      simpa [runFull, hrl, LoopExit.state] using key
    | errorBreak st =>
      rw [hrl] at key
      simpa [runFull, hrl, LoopExit.state] using key
    | exhausted st =>
      rw [hrl] at key
      simpa [runFull, hrl, LoopExit.state] using key
  refine ⟨hres, ?_⟩
  intro v w hv hw hgv
  rw [hres v hv, hres w hw, hgv]

/-- C8 witness: the single record of a one-pass successful run. -/
theorem claim8_passedPure_run_witness :
    (⟨true, "", "yes"⟩ : Verification) ∈
      (runFull ⟨2, 1, 2⟩ passOracle "p").result.verifications ∧
    (⟨true, "", "yes"⟩ : Verification).passed =
      containsYes (⟨true, "", "yes"⟩ : Verification).goodVerify :=
  ⟨by decide,
   (claim8_passedPure_run ⟨2, 1, 2⟩ passOracle "p").1 ⟨true, "", "yes"⟩ (by decide)⟩

end DeepThink

namespace DeepThink

/-! ## Claim C2 -/

theorem firstIdx_none_iff (m : List Char) :
    ∀ s, firstIdx m s = none ↔ hasSub m s = false := by
  intro s
  induction s with
  | nil =>
    by_cases hm : m.isEmpty = true
    · simp [firstIdx, hasSub, hm]
    · simp [firstIdx, hasSub, hm]
  | cons c t ih =>
    by_cases hp : m.isPrefixOf (c :: t) = true
    · simp [firstIdx, hasSub, hp]
    · simp [firstIdx, hasSub, hp, ih]

theorem firstIdx_some_spec (m : List Char) :
    ∀ s i, firstIdx m s = some i →
      occursAt m s i = true ∧ ∀ j, j < i → occursAt m s j = false := by
  intro s
  induction s with
  | nil =>
    intro i h
    by_cases hm : m.isEmpty = true
    · simp [firstIdx, hm] at h
      subst h
      constructor
      · have : m = [] := List.isEmpty_iff.mp hm
        subst this
        rfl
      · intro j hj
        exact absurd hj (Nat.not_lt_zero j)
    · simp [firstIdx, hm] at h
  | cons c t ih =>
    intro i h
    by_cases hp : m.isPrefixOf (c :: t) = true
    · simp [firstIdx, hp] at h
      subst h
      refine ⟨by simpa [occursAt] using hp, ?_⟩
      intro j hj
      exact absurd hj (Nat.not_lt_zero j)
    · simp [firstIdx, hp] at h
      obtain ⟨k, hk, rfl⟩ := h
      obtain ⟨h1, h2⟩ := ih k hk
      refine ⟨by simpa [occursAt] using h1, ?_⟩
      intro j hj
      cases j with
      | zero =>
        simpa [occursAt] using Bool.not_eq_true _ ▸ hp
      | succ j' =>
        simpa [occursAt] using h2 j' (by omega)

/-- C2 (amended): the Verify step's detailed portion is computed by
locating the first occurrence of the fixed `"Detailed Solution"` marker
and taking the whitespace-trimmed text after it; when the marker is
absent from the solution, the detailed portion is the *empty string*,
not the whole solution text. -/
theorem claim2_detailedPortion (s : String) :
    (hasSub extractDetailedSolutionMarker.data s.data = false →
      verifyDetailedPortion s = "") ∧
    (∀ i, firstIdx extractDetailedSolutionMarker.data s.data = some i →
      occursAt extractDetailedSolutionMarker.data s.data i = true ∧
      (∀ j, j < i → occursAt extractDetailedSolutionMarker.data s.data j = false) ∧
      (verifyDetailedPortion s).data =
        trimChars (s.data.drop (i + extractDetailedSolutionMarker.data.length))) := by
  constructor
  · intro habs
    have hnone : firstIdx extractDetailedSolutionMarker.data s.data = none :=
      (firstIdx_none_iff _ _).mpr habs
    simp [verifyDetailedPortion, extractDetailedSolution, extractCore, hnone]
  · intro i hi
    obtain ⟨h1, h2⟩ := firstIdx_some_spec _ _ _ hi
    refine ⟨h1, h2, ?_⟩
    simp [verifyDetailedPortion, extractDetailedSolution, extractCore, hi]

/-- C2 is false as stated: on a solution not containing the marker the
detailed portion handed to the verification prompt is `""`, not the whole
solution text. -/
theorem claim2_detailedPortion_cex :
    verifyDetailedPortion "abc" = "" ∧
    verifyDetailedPortion "abc" ≠ "abc" ∧
    hasSub extractDetailedSolutionMarker.data "abc".data = false := by
  refine ⟨?_, ?_, ?_⟩ <;> decide

/-- C2 witness: one marker-free solution and one solution with the marker
at index 2. -/
theorem claim2_detailedPortion_witness :
    verifyDetailedPortion "nomark" = "" ∧
    (verifyDetailedPortion "abDetailed Solution  z ").data =
      trimChars ("abDetailed Solution  z ".data.drop
        (2 + extractDetailedSolutionMarker.data.length)) :=
  ⟨(claim2_detailedPortion "nomark").1 (by decide),
   ((claim2_detailedPortion "abDetailed Solution  z ").2 2 (by decide)).2.2⟩

end DeepThink

namespace DeepThink

/-! ## Multi-agent engine (`UltraThinkEngine`, index.ts lines 439-776)

Agent runs execute concurrently but share no state (`Promise.all` keeps the
result order of the config list); each agent's outcome is therefore a
function of its own configuration and its own engine run, modelled as an
oracle value per dispatched index. -/

structure AgentConfig where
  agentId : String
  approach : String
  specificPrompt : String
deriving DecidableEq, Repr

structure AgentResult where
  agentId : String
  approach : String
  specificPrompt : String
  status : String
  progress : Nat
  solution : Option String
  verifications : Option (List Verification)
  error : Option String
deriving DecidableEq, Repr

/-- A JS thrown value as observed by `runAgent`'s catch clause: an `Error`
with its `message`, or any non-`Error` value. -/
inductive ThrownValue where
  | jsError (message : String)
  | nonError
deriving DecidableEq, Repr

/-- The expression `err instanceof Error ? err.message : "Unknown error"`
(index.ts line 675). -/
def thrownMessage : ThrownValue → String
  | .jsError m => m
  | .nonError => "Unknown error"

/-- The observable behaviour of one agent's inner `engine.run()`: either it
returns (with its full run output) or it throws after having emitted a
prefix of its event stream. -/
inductive AgentOutcome where
  | finished (out : RunOut)
  | threw (evs : List ProgressEvent) (e : ThrownValue)
deriving DecidableEq, Repr

def isFinished : AgentOutcome → Bool
  | .finished _ => true
  | .threw _ _ => false

/-- Replay of `result.progress` through the inner `onProgress` handler
(index.ts lines 627-656): `thinking` sets `min(20 + 2·iteration, 80)`,
`success` sets 100, other events leave it unchanged (initially 0). -/
def progressReplay (evs : List ProgressEvent) : Nat :=
  evs.foldl
    (fun acc e =>
      match e with
      | .thinking it _ => min (20 + it * 2) 80
      | .success _ _ => 100
      | _ => acc) 0

/-- Replay of `result.error` through the inner `onProgress` handler: each
failure event overwrites it with its reason; nothing ever clears it. -/
def lastFailureReason (evs : List ProgressEvent) : Option String :=
  evs.foldl
    (fun acc e =>
      match e with
      | .failure r => some r
      | _ => acc) none

/-- The method `UltraThinkEngine.runAgent` (index.ts lines 599-685).  When the inner
run returns, the code overwrites status to `"completed"`, progress to 100
and stores the solution and verifications (the `error` field keeps
whatever a failure event last wrote).  When the inner run throws, the
catch clause sets status `"failed"` and overwrites `error` with the
thrown error's message. -/
def runAgent (config : AgentConfig) (outcome : AgentOutcome) : AgentResult :=
  match outcome with
  | .finished out =>
    { agentId := config.agentId, approach := config.approach,
      specificPrompt := config.specificPrompt,
      status := "completed", progress := 100,
      solution := some out.result.finalSolution,
      verifications := some out.result.verifications,
      error := lastFailureReason out.events }
  | .threw evs e =>
    { agentId := config.agentId, approach := config.approach,
      specificPrompt := config.specificPrompt,
      status := "failed", progress := progressReplay evs,
      solution := none, verifications := none,
      error := some (thrownMessage e) }

structure UltraThinkResult where
  mode : String
  plan : String
  agentResults : List AgentResult
  synthesis : String
  finalSolution : String
  totalAgents : Nat
  completedAgents : Nat
deriving DecidableEq, Repr

/-- Oracle for one `UltraThinkEngine.run`: the plan text, the agent
configurations produced by `generateAgentConfigs`, the outcome of each
dispatched agent's inner run, and the synthesis text. -/
structure UltraOracle where
  problem : String
  plan : String
  configs : List AgentConfig
  outcomes : Nat → AgentOutcome
  synthesis : String

/-- Agent selection (index.ts lines 699-701):
`this.options.numAgents ? configs.slice(0, numAgents) : configs` — note
that a configured `numAgents = 0` is falsy in JS and therefore behaves
like an absent cap. -/
def selectConfigs (numAgents : Option Nat) (configs : List AgentConfig) :
    List AgentConfig :=
  match numAgents with
  | some n => if n = 0 then configs else configs.take n
  | none => configs

structure UltraRunOut where
  result : UltraThinkResult
  events : List ProgressEvent
deriving DecidableEq, Repr

/-- The method `UltraThinkEngine.run` (index.ts lines 687-775): plan, configs,
selection, parallel dispatch (`Promise.all` preserves list order), the
synthesis call, the orchestration-level event stream, and the terminal
record.  The inner engines' events are routed to per-agent callbacks,
never to this stream. -/
def ultraRun (numAgents : Option Nat) (o : UltraOracle) : UltraRunOut :=
  let selected := selectConfigs numAgents o.configs
  let agentResults := selected.enum.map (fun p => runAgent p.2 (o.outcomes p.1))
  { result :=
      { mode := "ultra-think", plan := o.plan, agentResults := agentResults,
        synthesis := o.synthesis, finalSolution := o.synthesis,
        totalAgents := selected.length,
        completedAgents :=
          (agentResults.filter (fun r => r.status == "completed")).length },
    events :=
      [.init o.problem,
       .progress "Generating thinking plan...",
       .progress "Generating agent configurations...",
       .progress ("Running " ++ toString selected.length ++ " agents in parallel..."),
       .progress "Synthesizing results...",
       .success o.synthesis 1] }

end DeepThink

namespace DeepThink

/-! ### Multi-agent bookkeeping lemmas -/

theorem runAgent_status_completed (c : AgentConfig) (oc : AgentOutcome) :
    ((runAgent c oc).status == "completed") = isFinished oc := by
  cases oc <;> rfl

theorem ultraRun_agentResults_getElem? (numAgents : Option Nat) (o : UltraOracle)
    (i : Nat) :
    (ultraRun numAgents o).result.agentResults[i]? =
      ((selectConfigs numAgents o.configs)[i]?).map
        (fun c => runAgent c (o.outcomes i)) := by
  simp only [ultraRun]
  rw [List.getElem?_map, List.getElem?_enum, Option.map_map]
  rfl

theorem ultraRun_agentResults_length (numAgents : Option Nat) (o : UltraOracle) :
    (ultraRun numAgents o).result.agentResults.length =
      (selectConfigs numAgents o.configs).length := by
  simp [ultraRun]

theorem ultraRun_completedAgents (numAgents : Option Nat) (o : UltraOracle) :
    (ultraRun numAgents o).result.completedAgents =
      ((List.range (selectConfigs numAgents o.configs).length).filter
        (fun i => isFinished (o.outcomes i))).length := by
  simp only [ultraRun]
  rw [← List.countP_eq_length_filter, ← List.countP_eq_length_filter,
    List.countP_map]
  have hcong :
      List.countP
        ((fun r => r.status == "completed") ∘
          (fun p : Nat × AgentConfig => runAgent p.2 (o.outcomes p.1)))
        (selectConfigs numAgents o.configs).enum =
      List.countP ((fun i => isFinished (o.outcomes i)) ∘ Prod.fst)
        (selectConfigs numAgents o.configs).enum := by
    apply List.countP_congr
    intro p _
    simp only [Function.comp]
    rw [runAgent_status_completed p.2 (o.outcomes p.1)]
  rw [hcong, ← List.countP_map, List.enum_map_fst]

end DeepThink

namespace DeepThink

/-! ## Claim C4 -/

/-- C4 (amended): in a multi-agent run, an agent whose inner engine run
throws ends with status `"failed"` and its `error` field set to the
thrown error's message (`"Unknown error"` for non-`Error` values) — a
message that is empty exactly when an `Error` with an empty message was
thrown; an agent whose inner run returns ends `"completed"`; every
dispatched agent yields a result (its slot does not depend on any sibling
outcome), and `completedAgents` counts exactly the results with final
status `"completed"`, i.e. the agents whose inner run returned. -/
theorem claim4_isolation_run (numAgents : Option Nat) (o : UltraOracle) :
    (ultraRun numAgents o).result.agentResults.length =
      (selectConfigs numAgents o.configs).length ∧
    (∀ i c, (selectConfigs numAgents o.configs)[i]? = some c →
      (ultraRun numAgents o).result.agentResults[i]? =
        some (runAgent c (o.outcomes i))) ∧
    (∀ c evs e, (runAgent c (.threw evs e)).status = "failed" ∧
      (runAgent c (.threw evs e)).error = some (thrownMessage e)) ∧
    (∀ c out, (runAgent c (.finished out)).status = "completed") ∧
    (ultraRun numAgents o).result.completedAgents =
      ((List.range (selectConfigs numAgents o.configs).length).filter
        (fun i => isFinished (o.outcomes i))).length ∧
    (∀ (o2 : UltraOracle) (j : Nat), o2.configs = o.configs →
      (∀ k, k ≠ j → o2.outcomes k = o.outcomes k) →
      ∀ i, i ≠ j →
        (ultraRun numAgents o2).result.agentResults[i]? =
          (ultraRun numAgents o).result.agentResults[i]?) := by
  refine ⟨ultraRun_agentResults_length numAgents o, ?_, ?_, ?_,
    ultraRun_completedAgents numAgents o, ?_⟩
  · intro i c hc
    rw [ultraRun_agentResults_getElem?, hc]
    rfl
  · intro c evs e
    exact ⟨rfl, rfl⟩
  · intro c out
    rfl
  · intro o2 j hcfg hout i hij
    rw [ultraRun_agentResults_getElem?, ultraRun_agentResults_getElem?, hcfg,
      hout i hij]

/-- Two fixed agent configurations. -/
def cfgA : AgentConfig := ⟨"agent-1", "algebraic", "use algebra"⟩

def cfgB : AgentConfig := ⟨"agent-2", "geometric", "use geometry"⟩

/-- A finished inner run used as a completed-agent outcome. -/
def finishedOut : RunOut := runFull ⟨2, 1, 2⟩ passOracle "q"

/-- One agent throws an `Error` whose message is `"boom"`; the other agent
finishes. -/
def mixOracle : UltraOracle :=
  ⟨"prob", "plan", [cfgA, cfgB],
   fun n => if n = 0 then .threw [] (.jsError "boom") else .finished finishedOut,
   "syn"⟩

/-- One agent throws an `Error` whose message is empty; the other agent
finishes. -/
def emptyErrOracle : UltraOracle :=
  ⟨"prob", "plan", [cfgA, cfgB],
   fun n => if n = 0 then .threw [] (.jsError "") else .finished finishedOut,
   "syn"⟩

/-- C4 is false as stated: when an agent's inner run throws an `Error`
whose `message` is the empty string, the agent's result has status
`"failed"` but its error message is `""` — not a non-empty message —
while the sibling still completes and is the only one counted. -/
theorem claim4_isolation_cex :
    emptyErrOracle.outcomes 0 = .threw [] (.jsError "") ∧
    ((ultraRun none emptyErrOracle).result.agentResults[0]?).map
      (fun r => (r.status, r.error)) = some ("failed", some "") ∧
    ("" : String).data.length = 0 ∧
    ((ultraRun none emptyErrOracle).result.agentResults[1]?).map
      (fun r => r.status) = some "completed" ∧
    (ultraRun none emptyErrOracle).result.completedAgents = 1 := by
  refine ⟨?_, ?_, ?_, ?_, ?_⟩ <;> decide

/-- C4 witness over `mixOracle`: the throwing agent fails with the thrown
message, and `completedAgents` counts exactly the finished outcomes. -/
theorem claim4_isolation_run_witness :
    (ultraRun none mixOracle).result.agentResults[0]? =
      some (runAgent cfgA (.threw [] (.jsError "boom"))) ∧
    (runAgent cfgA (.threw [] (.jsError "boom"))).status = "failed" ∧
    (runAgent cfgA (.threw [] (.jsError "boom"))).error =
      some (thrownMessage (.jsError "boom")) ∧
    (ultraRun none mixOracle).result.completedAgents =
      ((List.range (selectConfigs none mixOracle.configs).length).filter
        (fun i => isFinished (mixOracle.outcomes i))).length :=
  ⟨(claim4_isolation_run none mixOracle).2.1 0 cfgA (by decide),
   ((claim4_isolation_run none mixOracle).2.2.1 cfgA [] (.jsError "boom")).1,
   ((claim4_isolation_run none mixOracle).2.2.1 cfgA [] (.jsError "boom")).2,
   (claim4_isolation_run none mixOracle).2.2.2.2.1⟩

end DeepThink

namespace DeepThink

/-! ## Claim C7 -/

/-- C7 (amended): for a configured maximum `M ≥ 1`, the run dispatches
exactly the first `min M P` configurations in generation order (so
exactly the first `M` when `M < P`) and `totalAgents = min M P`; with no
configured maximum — or with a configured maximum of `0`, which the JS
truthiness test treats as unset — all `P` configurations are dispatched
and `totalAgents = P`. -/
theorem claim7_selection_run (o : UltraOracle) (M : Nat) (hM : 1 ≤ M) :
    (ultraRun (some M) o).result.totalAgents = min M o.configs.length ∧
    (M < o.configs.length → (ultraRun (some M) o).result.totalAgents = M) ∧
    (∀ i, i < M →
      (ultraRun (some M) o).result.agentResults[i]? =
        (o.configs[i]?).map (fun c => runAgent c (o.outcomes i))) ∧
    (ultraRun none o).result.totalAgents = o.configs.length ∧
    (ultraRun (some 0) o).result.totalAgents = o.configs.length := by
  have hM0 : M ≠ 0 := by omega
  have hsel : selectConfigs (some M) o.configs = o.configs.take M := by
    simp [selectConfigs, hM0]
  refine ⟨?_, ?_, ?_, ?_, ?_⟩
  · simp [ultraRun, hsel]
  · intro h
    simp [ultraRun, hsel]
    omega
  · intro i hi
    rw [ultraRun_agentResults_getElem?, hsel, List.getElem?_take_of_lt hi]
  · simp [ultraRun, selectConfigs]
  · simp [ultraRun, selectConfigs]

/-- All-throwing outcomes over the two fixed configurations. -/
def allFailUltra : UltraOracle :=
  ⟨"prob", "plan", [cfgA, cfgB], fun _ => .threw [] .nonError, "syn"⟩

/-- C7 is false as stated: a configured maximum of `M = 0 < P = 2`
dispatches all 2 configurations and reports `totalAgents = 2`, not 0. -/
theorem claim7_selection_cex :
    (ultraRun (some 0) allFailUltra).result.totalAgents = 2 ∧
    (ultraRun (some 0) allFailUltra).result.totalAgents ≠ 0 ∧
    (ultraRun (some 0) allFailUltra).result.agentResults.length = 2 := by
  refine ⟨?_, ?_, ?_⟩ <;> decide

/-- C7 witness at `M = 1 < P = 2`. -/
theorem claim7_selection_run_witness :
    (ultraRun (some 1) allFailUltra).result.totalAgents =
      min 1 allFailUltra.configs.length ∧
    (ultraRun (some 1) allFailUltra).result.totalAgents = 1 ∧
    (ultraRun (some 1) allFailUltra).result.agentResults[0]? =
      (allFailUltra.configs[0]?).map
        (fun c => runAgent c (allFailUltra.outcomes 0)) :=
  ⟨(claim7_selection_run allFailUltra 1 (by decide)).1,
   (claim7_selection_run allFailUltra 1 (by decide)).2.1 (by decide),
   (claim7_selection_run allFailUltra 1 (by decide)).2.2.1 0 (by decide)⟩

/-! ## Claim C10 -/

/-- C10: `UltraThinkEngine.run` never emits a failure event at the
orchestration level: its event stream contains no failure event, it ends
with a success event carrying the synthesis and `iterations = 1`, the
synthesis becomes the final solution, and this holds even when every
dispatched agent's inner run threw, in which case `completedAgents = 0`. -/
theorem claim10_orchestration_run (numAgents : Option Nat) (o : UltraOracle) :
    countFailures (ultraRun numAgents o).events = 0 ∧
    (ultraRun numAgents o).events.getLast? =
      some (.success o.synthesis 1) ∧
    (ultraRun numAgents o).result.synthesis = o.synthesis ∧
    (ultraRun numAgents o).result.finalSolution = o.synthesis ∧
    ((∀ i, i < (selectConfigs numAgents o.configs).length →
        isFinished (o.outcomes i) = false) →
      (ultraRun numAgents o).result.completedAgents = 0) := by
  refine ⟨rfl, rfl, rfl, rfl, ?_⟩
  intro h
  have hnil : (List.range (selectConfigs numAgents o.configs).length).filter
      (fun i => isFinished (o.outcomes i)) = [] := by
    rw [List.filter_eq_nil_iff]
    intro i hi
    simp [h i (List.mem_range.mp hi)]
  rw [ultraRun_completedAgents, hnil]
  rfl

/-- C10 witness: both agents throw, yet the orchestration emits its
success event and reports `completedAgents = 0`. -/
theorem claim10_orchestration_run_witness :
    countFailures (ultraRun none allFailUltra).events = 0 ∧
    (ultraRun none allFailUltra).events.getLast? =
      some (.success "syn" 1) ∧
    (ultraRun none allFailUltra).result.completedAgents = 0 :=
  ⟨(claim10_orchestration_run none allFailUltra).1,
   (claim10_orchestration_run none allFailUltra).2.1,
   (claim10_orchestration_run none allFailUltra).2.2.2.2 (fun _ _ => rfl)⟩

end DeepThink

namespace DeepThink

/-! ## Claim C6 — `generateAgentConfigs` textual fallback
(index.ts lines 563-596)

`JSON.parse` is a platform primitive, not repository code; it enters the
embedding as a function `jp : String → Except String JsonVal` producing a
parsed JSON value or a parse-error message.  Everything the repository
does around it — fence stripping, the array/object dispatch, the `||`
fallback, the diagnostic message — is translated from the source. -/

/-- A parsed JSON value. -/
inductive JsonVal where
  | null
  | bool (b : Bool)
  | num (n : Int)
  | str (s : String)
  | arr (elems : List JsonVal)
  | obj (fields : List (String × JsonVal))

/-- JS truthiness of a parsed JSON value (`NaN` aside). -/
def jsTruthy : JsonVal → Bool
  | .null => false
  | .bool b => b
  | .num n => !(n == 0)
  | .str s => !(s == "")
  | .arr _ => true
  | .obj _ => true

/-- Property read `parsed.configs` on an object: the first field named
`"configs"`, if any. -/
def lookupConfigs (fields : List (String × JsonVal)) : Option JsonVal :=
  (fields.find? (fun q => q.1 == "configs")).map Prod.snd

/-- The expression `parsed.configs || parsed` (index.ts line 589): reading `configs` off
`null` throws a `TypeError`; off an object it yields the field (kept when
truthy, else the object); off any other value it is `undefined`, so the
`||` falls back to the parsed value itself. -/
def configsOrSelf : JsonVal → Except String JsonVal
  | .null => .error "Cannot read properties of null"
  | .obj fields =>
    match lookupConfigs fields with
    | some v => .ok (if jsTruthy v then v else .obj fields)
    | none => .ok (.obj fields)
  | v => .ok v

def jsTrim (s : String) : String := ⟨trimChars s.data⟩

def startsWithStr (pre s : String) : Bool := pre.data.isPrefixOf s.data

def endsWithStr (suf s : String) : Bool := suf.data.isSuffixOf s.data

/-- JS `s.slice(n)` for `0 ≤ n`. -/
def sliceFrom (s : String) (n : Nat) : String := ⟨s.data.drop n⟩

/-- JS `s.slice(0, -3)`. -/
def dropLast3 (s : String) : String := ⟨s.data.take (s.data.length - 3)⟩

/-- Leading-fence removal (index.ts lines 576-580): `"```json"` is 7
characters, `"```"` is 3. -/
def dropLeadingFence (t : String) : String :=
  if startsWithStr "```json" t then sliceFrom t 7
  else if startsWithStr "```" t then sliceFrom t 3
  else t

/-- Trailing-fence removal (index.ts lines 581-583). -/
def dropTrailingFence (t : String) : String :=
  if endsWithStr "```" t then dropLast3 t else t

/-- The `jsonText` preparation of the fallback path (index.ts lines
573-584): trim, strip a leading fence, strip a trailing fence, trim. -/
def stripFences (raw : String) : String :=
  jsTrim (dropTrailingFence (dropLeadingFence (jsTrim raw)))

/-- JS `jsonText.substring(0, 200)`. -/
def substring200 (s : String) : String := ⟨s.data.take 200⟩

/-- The diagnostic error of index.ts lines 591-594. -/
def mkParseErrorMsg (orig jsonText : String) : String :=
  "Failed to parse agent configurations. Original error: " ++ orig ++
    ". Response text: " ++ substring200 jsonText ++ "..."

/-- The whole textual fallback (index.ts lines 567-595) as a function of
the free-text response `raw` and the platform JSON parser `jp`. -/
def fallbackParse (jp : String → Except String JsonVal) (raw : String) :
    Except String JsonVal :=
  match jp (stripFences raw) with
  | .ok parsed =>
    match parsed with
    | .arr l => .ok (.arr l)
    | other =>
      match configsOrSelf other with
      | .ok v => .ok v
      | .error msg => .error (mkParseErrorMsg msg (stripFences raw))
  | .error msg => .error (mkParseErrorMsg msg (stripFences raw))

/-- The fallback produced a (claimed) configuration list. -/
def isArrResult : Except String JsonVal → Bool
  | .ok (.arr _) => true
  | _ => false

/-- The fallback failed with a diagnostic. -/
def isErrResult : Except String JsonVal → Bool
  | .error _ => true
  | _ => false

end DeepThink

namespace DeepThink

/-! ### Fence stripping and diagnostic lemmas -/

theorem isPrefixOf_append_self (l x : List Char) : l.isPrefixOf (l ++ x) = true :=
  List.isPrefixOf_iff_prefix.mpr (List.prefix_append l x)

theorem isSuffixOf_append_self (l x : List Char) : l.isSuffixOf (x ++ l) = true :=
  List.isSuffixOf_iff_suffix.mpr (List.suffix_append x l)

theorem dropWhile_append_eq_self (p : Char → Bool) (w x : List Char)
    (hw : w.dropWhile p = w) (hne : w ≠ []) :
    (w ++ x).dropWhile p = w ++ x := by
  cases w with
  | nil => exact absurd rfl hne
  | cons a t =>
    by_cases hp : p a = true
    · exfalso
      rw [List.dropWhile_cons, if_pos hp] at hw
      have hlen := congrArg List.length hw
      have hle := (List.dropWhile_sublist (l := t) p).length_le
      simp at hlen
      omega
    · have hpf : p a = false := by
        cases hpa : p a
        · rfl
        · exact absurd hpa hp
      rw [List.cons_append, List.dropWhile_cons, hpf]
      simp

theorem trimChars_wrapped (w s e : List Char)
    (hw1 : w.dropWhile Char.isWhitespace = w) (hw2 : w ≠ [])
    (he1 : e.reverse.dropWhile Char.isWhitespace = e.reverse)
    (he2 : e.reverse ≠ []) :
    trimChars (w ++ (s ++ e)) = w ++ (s ++ e) := by
  unfold trimChars
  rw [dropWhile_append_eq_self _ w (s ++ e) hw1 hw2]
  have hrev : (w ++ (s ++ e)).reverse = e.reverse ++ (s.reverse ++ w.reverse) := by
    simp [List.reverse_append, List.append_assoc]
  rw [hrev, dropWhile_append_eq_self _ e.reverse (s.reverse ++ w.reverse) he1 he2,
    ← hrev, List.reverse_reverse]

/-- Stripping a well-formed ```` ```json ```` fence: the code removes
exactly the two fences and trims what is between them. -/
theorem stripFences_json_wrap (s : String) :
    stripFences ("```json" ++ s ++ "```") = jsTrim s := by
  have hdata : ("```json" ++ s ++ "```").data
      = "```json".data ++ (s.data ++ "```".data) := by
    rw [String.data_append, String.data_append, List.append_assoc]
  have hw1 : "```json".data.dropWhile Char.isWhitespace = "```json".data := by
    decide
  have hw2 : "```json".data ≠ [] := by decide
  have he1 : ("```".data.reverse).dropWhile Char.isWhitespace
      = "```".data.reverse := by decide
  have he2 : "```".data.reverse ≠ [] := by decide
  have htrim : jsTrim ("```json" ++ s ++ "```") = "```json" ++ s ++ "```" := by
    apply String.ext
    show trimChars (("```json" ++ s ++ "```").data)
        = ("```json" ++ s ++ "```").data
    rw [hdata]
    exact trimChars_wrapped _ _ _ hw1 hw2 he1 he2
  have hlead : dropLeadingFence ("```json" ++ s ++ "```")
      = ⟨s.data ++ "```".data⟩ := by
    unfold dropLeadingFence
    have hpre : startsWithStr "```json" ("```json" ++ s ++ "```") = true := by
      unfold startsWithStr
      rw [hdata]
      exact isPrefixOf_append_self _ _
    rw [if_pos hpre]
    apply String.ext
    show ("```json" ++ s ++ "```").data.drop 7 = s.data ++ "```".data
    rw [hdata]
    have h7 : (7 : Nat) = "```json".data.length := by decide
    rw [h7, List.drop_left]
  have htail : dropTrailingFence ⟨s.data ++ "```".data⟩ = ⟨s.data⟩ := by
    unfold dropTrailingFence
    have hsuf : endsWithStr "```" ⟨s.data ++ "```".data⟩ = true := by
      unfold endsWithStr
      exact isSuffixOf_append_self _ _
    rw [if_pos hsuf]
    apply String.ext
    show (s.data ++ "```".data).take ((s.data ++ "```".data).length - 3) = s.data
    have h3 : "```".data.length = 3 := by decide
    rw [List.length_append, h3]
    have hl : s.data.length + 3 - 3 = s.data.length := by omega
    rw [hl]
    exact List.take_left s.data "```".data
  unfold stripFences
  rw [htrim, hlead, htail]

theorem hasSub_of_isPrefixOf (m l : List Char) (h : m.isPrefixOf l = true) :
    hasSub m l = true := by
  cases l with
  | nil =>
    cases m with
    | nil => rfl
    | cons c t => exact absurd h (by simp [List.isPrefixOf])
  | cons c t =>
    rw [hasSub, h]
    rfl

theorem hasSub_append_middle (m b : List Char) :
    ∀ a, hasSub m (a ++ (m ++ b)) = true := by
  intro a
  induction a with
  | nil =>
    exact hasSub_of_isPrefixOf m (m ++ b) (isPrefixOf_append_self m b)
  | cons c a' ih =>
    rw [List.cons_append, hasSub, ih]
    simp

end DeepThink

namespace DeepThink

/-- C6 (amended): on structured-decode failure the fallback strips
markdown fences (removing a ```` ```json ```` wrapper exactly), parses the
remainder, and returns a bare JSON list as-is or an object's truthy
`configs` field; but a successfully parsed value of any other shape is
returned unvalidated (it need not be a list of AgentConfig), and only a
parse (or property-access) failure produces the diagnostic error, which
embeds the first 200 characters of the offending text. -/
theorem claim6_fallback_run (jp : String → Except String JsonVal) (raw : String) :
    (∀ s, stripFences ("```json" ++ s ++ "```") = jsTrim s) ∧
    (∀ l, jp (stripFences raw) = .ok (.arr l) →
      fallbackParse jp raw = .ok (.arr l)) ∧
    (∀ fields v, jp (stripFences raw) = .ok (.obj fields) →
      lookupConfigs fields = some v → jsTruthy v = true →
      fallbackParse jp raw = .ok v) ∧
    (∀ msg, jp (stripFences raw) = .error msg →
      fallbackParse jp raw = .error (mkParseErrorMsg msg (stripFences raw)) ∧
      (substring200 (stripFences raw)).data.length ≤ 200 ∧
      hasSub (substring200 (stripFences raw)).data
        (mkParseErrorMsg msg (stripFences raw)).data = true) := by
  refine ⟨stripFences_json_wrap, ?_, ?_, ?_⟩
  · intro l h
    unfold fallbackParse
    rw [h]
  · intro fields v h hl ht
    unfold fallbackParse
    rw [h]
    simp only [configsOrSelf, hl, if_pos ht]
  · intro msg h
    refine ⟨?_, ?_, ?_⟩
    · unfold fallbackParse
      rw [h]
    · show (List.take 200 (stripFences raw).data).length ≤ 200
      rw [List.length_take]
      omega
    · show hasSub (substring200 (stripFences raw)).data
        (mkParseErrorMsg msg (stripFences raw)).data = true
      unfold mkParseErrorMsg
      have key := hasSub_append_middle (substring200 (stripFences raw)).data
        "...".data
        ("Failed to parse agent configurations. Original error: ".data ++
          (msg.data ++ ". Response text: ".data))
      simp only [String.data_append, List.append_assoc]
      simpa [List.append_assoc] using key

/-- C6 is false as stated: feeding the fallback a response that parses to
the JSON object `{}` (no `configs` field) yields neither a configuration
list nor a diagnostic error — the object itself is returned unvalidated. -/
theorem claim6_fallback_cex :
    fallbackParse (fun _ => .ok (.obj [])) "{}" = .ok (.obj []) ∧
    isArrResult (fallbackParse (fun _ => .ok (.obj [])) "{}") = false ∧
    isErrResult (fallbackParse (fun _ => .ok (.obj [])) "{}") = false :=
  ⟨rfl, rfl, rfl⟩

/-- C6 witness: a parser that fails produces the diagnostic with the
truncated preview. -/
theorem claim6_fallback_run_witness :
    fallbackParse (fun _ => .error "bad token") "x" =
      .error (mkParseErrorMsg "bad token" (stripFences "x")) ∧
    (substring200 (stripFences "x")).data.length ≤ 200 :=
  ⟨((claim6_fallback_run (fun _ => .error "bad token") "x").2.2.2 "bad token" rfl).1,
   ((claim6_fallback_run (fun _ => .error "bad token") "x").2.2.2 "bad token" rfl).2.1⟩

end DeepThink
